import Mathlib

/-!
Verification development for the elastic-package LLM documentation agent
(internal/llmagent and internal/llmagent/tools).

The Go source is shallowly embedded: strings are Lean `String`s, Go's
`strings`/`path/filepath` helpers are re-implemented on `List Char` /
`List String`, filesystem interaction is abstracted into explicit state
records, and every handler returns its result value together with the
list of filesystem effects it performed and the Go-level `error` return
(`none` everywhere, since the tool handlers always return a nil error).
-/

/-! ### Go string primitives (`strings` package) -/

/-- Boolean list equality-based "is b a leading segment of l" test; models the
byte comparison done by `strings.HasPrefix`. -/
def isPrefixB : List Char → List Char → Bool
  | [], _ => true
  | _ :: _, [] => false
  | a :: as, b :: bs => a == b && isPrefixB as bs

/-- Models `strings.Contains(hay, needle)` (via an occurrence of `needle`
at any position of `hay`). -/
def isInfixB (needle : List Char) : List Char → Bool
  | [] => isPrefixB needle []
  | c :: t => isPrefixB needle (c :: t) || isInfixB needle t

/-- Models `strings.Contains(hay, needle)`. -/
def containsSub (hay needle : String) : Bool := isInfixB needle.data hay.data

/-- Models `strings.HasPrefix(s, pre)`. -/
def hasPrefixStr (s pre : String) : Bool := isPrefixB pre.data s.data

/-- Models `unicode` lower-casing on the ASCII range, which is all the
source's phrase matching relies on (`strings.ToLower`). -/
def toLowerC (c : Char) : Char :=
  if c.toNat ≥ 65 ∧ c.toNat ≤ 90 then Char.ofNat (c.toNat + 32) else c

/-- Models `strings.ToLower`. -/
def toLowerS (s : String) : String := ⟨s.data.map toLowerC⟩

/-- Whitespace as recognized by `strings.TrimSpace` (ASCII subset). -/
def isSpaceC (c : Char) : Bool :=
  c.toNat = 32 || c.toNat = 9 || c.toNat = 10 || c.toNat = 13 || c.toNat = 11 || c.toNat = 12

/-- Models `strings.TrimSpace`. -/
def trimS (s : String) : String :=
  ⟨((s.data.dropWhile isSpaceC).reverse.dropWhile isSpaceC).reverse⟩

/-- Models `strings.Index(hay, needle)`: position of the first occurrence,
`none` for Go's `-1`. -/
def findSub (hay needle : List Char) : Option Nat :=
  match hay with
  | [] => if isPrefixB needle [] then some 0 else none
  | c :: t =>
    if isPrefixB needle (c :: t) then some 0
    else (findSub t needle).map (· + 1)

/-! ### Go path primitives (`path/filepath` package)

An absolute path is modeled as its list of components below the
filesystem root.  `filepath.Clean` on an absolute path removes `""`/`"."`
components and resolves `".."` against the preceding component (dropping
it at the root), which is exactly `cleanAbs`. -/

/-- One step of `filepath.Clean` on an absolute path. -/
def cleanStep (acc : List String) (s : String) : List String :=
  if s = "" ∨ s = "." then acc
  else if s = ".." then acc.dropLast
  else acc ++ [s]

/-- Models `filepath.Clean` on an absolute path given as components. -/
def cleanAbs (segs : List String) : List String := segs.foldl cleanStep []

/-- Components of a user-supplied relative path (split on `/`). -/
def splitPath (p : String) : List String := (p.data.splitOn '/').map List.asString

/-- Models `filepath.Join(root, p)` for an absolute `root`: concatenation
followed by `filepath.Clean`. -/
def joinPath (root : List String) (p : String) : List String :=
  cleanAbs (root ++ splitPath p)

/-- Longest-common-prefix removal, the core of `filepath.Rel`. -/
def dropCommon : List String → List String → List String × List String
  | [], t => ([], t)
  | b, [] => (b, [])
  | a :: as, b :: bs => if a = b then dropCommon as bs else (a :: as, b :: bs)

/-- Models `filepath.Rel(base, target)` for two cleaned absolute paths
(which never makes `Rel` fail): `..` segments for the unshared part of
`base`, then the unshared part of `target`; `"."` when they are equal. -/
def goRel (base target : List String) : List String :=
  let p := dropCommon base target
  if p.1 = [] ∧ p.2 = [] then ["."]
  else List.replicate p.1.length ".." ++ p.2

/-- Models the source's escape test
`err != nil || strings.HasPrefix(relPath, "..")` on the string rendering
of `goRel base target` (the first component carries the `..` lead). -/
def relEscapes (base target : List String) : Bool :=
  match goRel base target with
  | [] => false
  | s :: _ => hasPrefixStr s ".."

/-- Boolean list-leading-segment test for component lists (used to state
"the target lies under the directory"). -/
def listIsPref : List String → List String → Bool
  | [], _ => true
  | _ :: _, [] => false
  | a :: as, b :: bs => a == b && listIsPref as bs

/-- A component is "plain" when `filepath.Clean` copies it through. -/
def plainSeg (s : String) : Bool := !(s == "" || s == "." || s == "..")

/-! ### Filesystem abstraction and the tool layer (internal/llmagent/tools)

`FS` abstracts the pieces of the OS the tool handlers touch:
`eval` models `filepath.EvalSymlinks` (`ok` with the resolved path, the
`os.IsNotExist` error, or any other error), `readF` models `os.ReadFile`
(which follows symlinks), `readDir` models `os.ReadDir`, and the two
error predicates model failures of `os.MkdirAll` / `os.WriteFile`.
Handlers are modeled after JSON-argument decoding, and report their
result together with the filesystem effects performed and the Go-level
returned `error` (always `none` in the source). -/

inductive EvalRes where
  | ok (p : List String)
  | noEnt
  | err
deriving DecidableEq, Repr

structure DirEnt where
  name : String
  isDir : Bool
  size : Nat
deriving DecidableEq, Repr

structure FS where
  eval : List String → EvalRes
  readF : List String → Option String
  readDir : List String → Option (List DirEnt)
  mkdirErr : List String → Bool
  writeErr : List String → Bool

structure ToolResult where
  content : Option String
  error : Option String
deriving DecidableEq, Repr

inductive FsEffect where
  | mkdirAll (p : List String)
  | writeFile (p : List String) (content : String)
deriving DecidableEq, Repr

structure ToolCallOut where
  result : ToolResult
  effects : List FsEffect
  goErr : Option String
deriving DecidableEq, Repr

/-- First stage of `validatePathInRoot`: `filepath.EvalSymlinks(fullPath)`,
falling back to the lexical clean of the (already clean) join when the
target does not exist yet. -/
def resolveTarget (fs : FS) (fullPath : List String) : Except String (List String) :=
  match fs.eval fullPath with
  | .ok p => .ok p
  | .noEnt => .ok fullPath
  | .err => .error "failed to resolve path"

/-- Models `validatePathInRoot` (tools.go): joins the user path onto the
package root, resolves symlinks on both, and denies when the relative
path from the resolved root to the resolved target escapes. -/
def validatePathInRoot (fs : FS) (packageRoot : List String) (userPath : String) :
    Except String (List String) :=
  let fullPath := joinPath packageRoot userPath
  match resolveTarget fs fullPath with
  | .error e => .error e
  | .ok resolvedPath =>
    match fs.eval packageRoot with
    | .ok resolvedRoot =>
      let cleanPath := cleanAbs resolvedPath
      let cleanRoot := cleanAbs resolvedRoot
      if relEscapes cleanRoot cleanPath then
        .error ("path '" ++ userPath ++ "' is outside package root")
      else
        .ok fullPath
    | .noEnt => .error "failed to resolve package root"
    | .err => .error "failed to resolve package root"

/-- Models `readFileHandler` (tools.go): the textual `docs/` exclusion
with its `docs/knowledge_base/` whitelist, then sandbox validation, then
`os.ReadFile`. -/
def readFileHandler (fs : FS) (packageRoot : List String) (path : String) : ToolCallOut :=
  if hasPrefixStr path "docs/" && !hasPrefixStr path "docs/knowledge_base/" then
    ⟨⟨none, some "access denied: cannot read generated documentation in docs/ (use _dev/build/docs/ instead)"⟩, [], none⟩
  else
    match validatePathInRoot fs packageRoot path with
    | .error e => ⟨⟨none, some ("access denied: " ++ e)⟩, [], none⟩
    | .ok fullPath =>
      match fs.readF fullPath with
      | none => ⟨⟨none, some "failed to read file"⟩, [], none⟩
      | some content => ⟨⟨some content, none⟩, [], none⟩

/-- Rendering of one directory entry in `listDirectoryHandler`. -/
def renderDirEnt (e : DirEnt) : String :=
  if e.isDir then "  " ++ e.name ++ "/ (directory)\n"
  else "  " ++ e.name ++ " (file, " ++ toString e.size ++ " bytes)\n"

/-- Models `listDirectoryHandler` (tools.go): sandbox validation, then
`os.ReadDir`, hiding the generated `docs` entry from the listing. -/
def listDirectoryHandler (fs : FS) (packageRoot : List String) (path : String) : ToolCallOut :=
  match validatePathInRoot fs packageRoot path with
  | .error e => ⟨⟨none, some ("access denied: " ++ e)⟩, [], none⟩
  | .ok fullPath =>
    match fs.readDir fullPath with
    | none => ⟨⟨none, some "failed to read directory"⟩, [], none⟩
    | some entries =>
      let body := (entries.filter (fun e => e.name ≠ "docs")).foldl
        (fun acc e => acc ++ renderDirEnt e) ("Contents of " ++ path ++ ":\n")
      ⟨⟨some body, none⟩, [], none⟩

/-- The distinguished allowed-write directory `_dev/build/docs` under the
package root (`filepath.Join` cleans). -/
def allowedDir (packageRoot : List String) : List String :=
  cleanAbs (packageRoot ++ ["_dev", "build", "docs"])

/-- Models `writeFileHandler` (tools.go): sandbox validation against the
package root, the second containment check against `_dev/build/docs`
(resolving symlinks on the allowed directory, falling back to the lexical
clean when it does not exist yet), then `os.MkdirAll` on the parent
directory and `os.WriteFile`. -/
def writeFileHandler (fs : FS) (packageRoot : List String) (path content : String) :
    ToolCallOut :=
  match validatePathInRoot fs packageRoot path with
  | .error e => ⟨⟨none, some ("access denied: " ++ e)⟩, [], none⟩
  | .ok fullPath =>
    let resolvedAllowed? : Except String (List String) :=
      match fs.eval (allowedDir packageRoot) with
      | .ok p => .ok p
      | .noEnt => .ok (allowedDir packageRoot)
      | .err => .error "failed to resolve allowed directory"
    match resolvedAllowed? with
    | .error e => ⟨⟨none, some e⟩, [], none⟩
    | .ok resolvedAllowed =>
      let cleanPath := cleanAbs fullPath
      let cleanAllowed := cleanAbs resolvedAllowed
      if relEscapes cleanAllowed cleanPath then
        ⟨⟨none, some ("access denied: " ++ ("path '" ++ path ++ "' is outside allowed directory (_dev/build/docs/)"))⟩, [], none⟩
      else
        let dir := fullPath.dropLast
        if fs.mkdirErr dir then
          ⟨⟨none, some "failed to create directory"⟩, [], none⟩
        else if fs.writeErr fullPath then
          ⟨⟨none, some "failed to write file"⟩, [.mkdirAll dir], none⟩
        else
          ⟨⟨some ("Successfully wrote " ++ toString content.length ++ " bytes to " ++ path), none⟩,
            [.mkdirAll dir, .writeFile fullPath content], none⟩

/-! ### Conversation entries and the response classifier
(internal/llmagent documentation agent, target-doc-file version) -/

structure ConversationEntry where
  type : String
  content : String
deriving DecidableEq, Repr

/-- The fixed error-indicator phrases of `isTaskResultError`. -/
def errorIndicators : List String :=
  ["I encountered an error",
   "I'm experiencing an error",
   "I cannot complete",
   "I'm unable to complete",
   "Something went wrong",
   "There was an error",
   "I'm having trouble",
   "I failed to",
   "Error occurred",
   "Task did not complete within maximum iterations"]

/-- The fixed token-limit phrases of `isTokenLimitMessage`. -/
def tokenLimitIndicators : List String :=
  ["I reached the maximum response length",
   "maximum response length",
   "reached the token limit",
   "response is too long",
   "breaking this into smaller tasks",
   "due to length constraints",
   "response length limit",
   "token limit reached",
   "output limit exceeded",
   "maximum length exceeded"]

/-- Models `isTokenLimitMessage`: case-insensitive substring match against
the fixed token-limit phrase list. -/
def isTokenLimitMessage (content : String) : Bool :=
  let contentLower := toLowerS content
  tokenLimitIndicators.any (fun ind => containsSub contentLower (toLowerS ind))

/-- Success-phrase test on one tool-result content (the first check inside
the loop of `hasRecentSuccessfulTools`). -/
def isSuccessToolContent (content : String) : Bool :=
  let c := toLowerS content
  containsSub c "✅ success" || containsSub c "successfully wrote" ||
    containsSub c "completed successfully"

/-- Failure-phrase test on one tool-result content (the stop condition
inside the loop of `hasRecentSuccessfulTools`). -/
def isFailureToolContent (content : String) : Bool :=
  let c := toLowerS content
  containsSub c "❌ error" || containsSub c "failed:" || containsSub c "access denied"

/-- The backward scan of `hasRecentSuccessfulTools` over the (reversed)
tail of the conversation: a success tool-result returns true, a failure
tool-result stops the scan with false, anything else is skipped. -/
def scanRecentTools : List ConversationEntry → Bool
  | [] => false
  | e :: rest =>
    if e.type = "tool_result" then
      if isSuccessToolContent e.content then true
      else if isFailureToolContent e.content then false
      else scanRecentTools rest
    else scanRecentTools rest

/-- Models `hasRecentSuccessfulTools`: the Go loop walks indices
`len-1, len-2, ...` down to `len-5` (clamped at 0), i.e. it scans the
last five entries newest-first. -/
def hasRecentSuccessfulTools (conversation : List ConversationEntry) : Bool :=
  scanRecentTools (conversation.reverse.take 5)

/-- The error-indicator test of `isTaskResultError` (case-insensitive
substring match against the fixed failure phrase list). -/
def hasErrorIndicator (content : String) : Bool :=
  let contentLower := toLowerS content
  errorIndicators.any (fun ind => containsSub contentLower (toLowerS ind))

/-- Models `isTaskResultError`: empty (trimmed) replies are never errors;
token-limit replies are never errors; otherwise a reply is an error iff it
matches a failure phrase and the recent conversation does not show a
successful tool result (a `nil` Go conversation slice is `none`). -/
def isTaskResultError (content : String) (conversation : Option (List ConversationEntry)) :
    Bool :=
  if trimS content = "" then
    match conversation with
    | some conv => if hasRecentSuccessfulTools conv then false else false
    | none => false
  else if isTokenLimitMessage content then false
  else if !hasErrorIndicator content then false
  else
    match conversation with
    | some conv => if hasRecentSuccessfulTools conv then false else true
    | none => true

/-- Outcome of classifying one model reply. -/
inductive Classification where
  | success
  | tokenLimitHit
  | errorLike
deriving DecidableEq, Repr

/-- The classification order applied by both orchestration loops
(`runInteractiveMode`/`runNonInteractiveMode`): the token-limit check runs
first, then the error check with the conversation context, and everything
else proceeds as success. -/
def classify (content : String) (conversation : List ConversationEntry) : Classification :=
  if isTokenLimitMessage content then .tokenLimitHit
  else if isTaskResultError content (some conversation) then .errorLike
  else .success

/-! ### Protected-region engine (target-doc-file version) -/

/-- Marker vocabulary entry of `extractPreservedSections`. -/
structure MarkerPair where
  startM : String
  endM : String
  name : String
deriving DecidableEq, Repr

/-- The marker vocabularies of the target-doc-file version of
`extractPreservedSections`. -/
def presMarkers : List MarkerPair :=
  [⟨"<!-- PRESERVE START -->", "<!-- PRESERVE END -->", "PRESERVE"⟩]

/-- The scanning loop of `extractPreservedSections` for one marker pair:
find the next start marker, find the next end marker from there, record
the full delimited text (markers included) under the key `name-<n>`, and
continue after the end marker.  `fuel` bounds the iteration count (the Go
loop terminates because the scan position strictly increases; passing
`content.length + 1` fuel makes the model total). -/
def extractLoop (content startM endM : List Char) (mname : String) :
    Nat → Nat → Nat → List (String × String)
  | 0, _, _ => []
  | fuel + 1, startIdx, sectionNum =>
    match findSub (content.drop startIdx) startM with
    | none => []
    | some s0 =>
      let s := s0 + startIdx
      match findSub (content.drop s) endM with
      | none => []
      | some e0 =>
        let e := e0 + s
        let sectionContent := ((content.drop s).take (e + endM.length - s)).asString
        let sectionKey := mname ++ "-" ++ toString sectionNum
        (sectionKey, sectionContent) ::
          extractLoop content startM endM mname fuel (e + endM.length) (sectionNum + 1)

/-- Models `extractPreservedSections` (the Go map is represented as the
association list in extraction order; its keys are pairwise distinct by
construction, `PRESERVE-1`, `PRESERVE-2`, ...). -/
def extractPreservedSections (content : String) : List (String × String) :=
  presMarkers.foldl
    (fun acc m =>
      acc ++ extractLoop content.data m.startM.data m.endM.data m.name
        (content.data.length + 1) 0 1)
    []

/-- The warning text emitted for a non-preserved section. -/
def preservationWarning (marker : String) : String :=
  "Human-edited section '" ++ marker ++ "' was not preserved"

/-- Models `validatePreservedSections`: one warning per extracted region
whose exact text no longer occurs in the new content. -/
def validatePreservedSections (originalContent newContent : String) : List String :=
  (extractPreservedSections originalContent).filterMap
    (fun kv => if containsSub newContent kv.2 then none else some (preservationWarning kv.1))

/-! ### Managed-document store (backupOriginalReadme / restoreOriginalReadme)

The store touches a single path
`packageRoot/_dev/build/docs/<targetDocFile>`; `DocFS` models that one
file (presence and content) together with failure flags for the OS
primitives used (`os.ReadFile`, `os.WriteFile`, `os.Remove`). -/

structure DocFS where
  present : Bool
  content : String
  readFails : Bool
  writeFails : Bool
  removeFails : Bool
deriving DecidableEq, Repr

/-- Models `backupOriginalReadme`: on `os.Stat` success, read and store
the content (on read failure the agent field keeps its previous value,
initially `nil`); otherwise record that no document existed (`nil`). -/
def backupOriginalReadme (prev : Option String) (fs : DocFS) : Option String :=
  if fs.present then
    if fs.readFails then prev else some fs.content
  else none

/-- Models `restoreOriginalReadme`: write the stored backup back verbatim
when one exists, otherwise remove the created file (failures of the write
or remove leave the file as it was and only print a warning). -/
def restoreOriginalReadme (backup : Option String) (fs : DocFS) : DocFS :=
  match backup with
  | some c => if fs.writeFails then fs else { fs with present := true, content := c }
  | none => if fs.removeFails then fs else { fs with present := false }

/-! ### Task orchestration (runNonInteractiveMode / runInteractiveMode)

The loops are embedded as functions of an environment record carrying the
outcomes of their external calls (`executeTaskWithLogging`,
`handleReadmeUpdate`, the TUI selections).  Each model returns the Go
`error` result (as `Except String Unit`) together with a flag recording
whether `restoreOriginalReadme` was invoked on that path. -/

structure TaskResultM where
  finalContent : String
  conversation : List ConversationEntry
deriving DecidableEq, Repr

structure NIEnv where
  exec1 : Except String TaskResultM
  tokenPromptOk : Bool
  execTokenRetry : Except String TaskResultM
  updatedAfterTokenRetry : Bool
  updatedAfterFirst : Bool
  exec2 : Except String TaskResultM
  updatedAfterSecond : Bool
deriving Repr

/-- The tail of `runNonInteractiveMode` after the token-limit block: the
error check on the first reply, the first document check, the second
attempt with the explicit directive, and the final failure. -/
def runNonInteractiveRest (env : NIEnv) (result : TaskResultM) :
    Except String Unit × Bool :=
  if isTaskResultError result.finalContent (some result.conversation) then
    (.error ("LLM agent encountered an error: " ++ result.finalContent), false)
  else if env.updatedAfterFirst then (.ok (), false)
  else
    match env.exec2 with
    | .error e => (.error ("second attempt failed: " ++ e), false)
    | .ok _ =>
      if env.updatedAfterSecond then (.ok (), false)
      else (.error "failed to create the documentation file after two attempts", false)

/-- Models `runNonInteractiveMode`: first attempt, token-limit handling
with one section-based retry, error detection, and the bounded second
attempt.  The restore flag is the second component: the function contains
no call to `restoreOriginalReadme`. -/
def runNonInteractiveMode (env : NIEnv) : Except String Unit × Bool :=
  match env.exec1 with
  | .error e => (.error ("agent task failed: " ++ e), false)
  | .ok result =>
    if isTokenLimitMessage result.finalContent then
      if !env.tokenPromptOk then (.error "failed to handle token limit", false)
      else
        match env.execTokenRetry with
        | .error e => (.error ("section-based retry failed: " ++ e), false)
        | .ok _ =>
          if env.updatedAfterTokenRetry then (.ok (), false)
          else runNonInteractiveRest env result
    else runNonInteractiveRest env result

/-- One-iteration outcome of the interactive loop. -/
inductive IStep where
  | fatal (e : String)
  | retry
  | exitOk
  | exitErr (e : String)
deriving DecidableEq, Repr

structure IEnv where
  execRes : Except String TaskResultM
  errorChoice : String
  readmeUpdated : Bool
  userAction : String
  continueChoice : String
deriving Repr

/-- Models one iteration of `runInteractiveMode` together with
`handleInteractiveError`, `handleUserAction` and `handleAcceptAction`
(TUI prompt transport failures are not modeled; preservation warnings on
accept are reported but do not affect control flow).  The Bool component
records whether `restoreOriginalReadme` ran during the iteration. -/
def runInteractiveStep (env : IEnv) : IStep × Bool :=
  match env.execRes with
  | .error e => (.fatal ("agent task failed: " ++ e), false)
  | .ok result =>
    if isTokenLimitMessage result.finalContent then (.retry, false)
    else if isTaskResultError result.finalContent (some result.conversation) then
      if env.errorChoice = "Exit" then (.exitErr "user chose to exit due to LLM error", true)
      else (.retry, false)
    else
      match env.userAction with
      | "Accept and finalize" =>
        if env.readmeUpdated then (.exitOk, false)
        else if env.continueChoice = "Exit anyway" then (.exitOk, true)
        else (.retry, false)
      | "Request changes" => (.retry, false)
      | "Cancel" => (.exitOk, true)
      | a => (.exitErr ("unknown action: " ++ a), false)

/-! ### External MCP tool bridge (MCPServer.Connect / MCPTools)

`MCPServerEnv` carries the observable behavior of one configured
provider: whether a `url` is configured, whether `client.Connect`
succeeds, whether the initialize result advertises tools, and the
iterator of advertised features (`Sum.inr` is an iteration error, on
which the source calls `log.Fatal`). -/

structure ToolSpec where
  name : String
  description : String
deriving DecidableEq, Repr

structure MCPServerEnv where
  hasUrl : Bool
  connectOk : Bool
  toolsCap : Bool
  feats : List (Sum ToolSpec String)
deriving DecidableEq, Repr

/-- Result of `MCPServer.Connect`: collected tools, a returned connection
error, or process death through `log.Fatal`. -/
inductive ConnectRes where
  | ok (tools : List ToolSpec)
  | connErr
  | fatalStop
deriving DecidableEq, Repr

/-- The feature-iteration loop inside `Connect`: `log.Fatal` on an
iteration error, otherwise wrap every advertised feature as a tool. -/
def connectLoop : List (Sum ToolSpec String) → ConnectRes
  | [] => .ok []
  | .inl f :: rest =>
    match connectLoop rest with
    | .ok ts => .ok (f :: ts)
    | r => r
  | .inr _ :: _ => .fatalStop

/-- Models `MCPServer.Connect`. -/
def mcpConnect (s : MCPServerEnv) : ConnectRes :=
  if !s.connectOk then .connErr
  else if !s.toolsCap then .ok []
  else connectLoop s.feats

/-- Models the server loop of `MCPTools`: servers without a `url` are
skipped, a `Connect` error is assigned to `err` and ignored, and a
`log.Fatal` inside `Connect` kills the process (`none`). -/
def mcpToolsLoop : List MCPServerEnv → Option (List (List ToolSpec))
  | [] => some []
  | s :: rest =>
    if !s.hasUrl then (mcpToolsLoop rest).map (fun l => [] :: l)
    else
      match mcpConnect s with
      | .fatalStop => none
      | .connErr => (mcpToolsLoop rest).map (fun l => [] :: l)
      | .ok ts => (mcpToolsLoop rest).map (fun l => ts :: l)

/-- Models `MCPTools` restricted to the configured server set (a missing
or unreadable `mcp.json` contributes no servers at all). -/
def mcpTools (servers : List MCPServerEnv) : Option (List (List ToolSpec)) :=
  mcpToolsLoop servers

/-- Models the tool aggregation of `NewDocumentationAgent`: every bridged
tool of every provider, followed by the local package tools; `none` when
provider discovery killed the process. -/
def agentTools (servers : List MCPServerEnv) (localTools : List ToolSpec) :
    Option (List ToolSpec) :=
  match mcpTools servers with
  | none => none
  | some lists => some (lists.flatten ++ localTools)

/-- The tools a provider contributes according to the spec's isolation
reading: nothing unless a url is configured, the connection succeeds and
tools are advertised; otherwise exactly the advertised features. -/
def serverSpecTools (s : MCPServerEnv) : List ToolSpec :=
  if s.hasUrl ∧ s.connectOk ∧ s.toolsCap then
    s.feats.filterMap (fun f => f.getLeft?)
  else []

/-! ## General lemmas -/

theorem plainSeg_iff (s : String) : plainSeg s = true ↔ s ≠ "" ∧ s ≠ "." ∧ s ≠ ".." := by
  simp [plainSeg, and_assoc]

theorem cleanStep_plain (acc : List String) (s : String) (h : plainSeg s = true) :
    cleanStep acc s = acc ++ [s] := by
  obtain ⟨h1, h2, h3⟩ := (plainSeg_iff s).mp h
  simp [cleanStep, h1, h2, h3]

theorem foldl_cleanStep_plain (segs : List String) :
    ∀ acc, (∀ s ∈ acc, plainSeg s = true) →
      ∀ s ∈ segs.foldl cleanStep acc, plainSeg s = true := by
  induction segs with
  | nil => intro acc hacc; simpa using hacc
  | cons x xs ih =>
    intro acc hacc
    simp only [List.foldl_cons]
    apply ih
    intro s hs
    unfold cleanStep at hs
    split at hs
    · exact hacc s hs
    · split at hs
      · exact hacc s (List.dropLast_subset _ hs)
      · rcases List.mem_append.mp hs with h | h
        · exact hacc s h
        · rename_i hne1 hne2
          simp only [List.mem_singleton] at h
          subst h
          exact (plainSeg_iff s).mpr ⟨fun hc => hne1 (Or.inl hc), fun hc => hne1 (Or.inr hc), hne2⟩

theorem cleanAbs_all_plain (segs : List String) :
    ∀ s ∈ cleanAbs segs, plainSeg s = true :=
  foldl_cleanStep_plain segs [] (by simp)

theorem foldl_cleanStep_app (ys : List String)
    (h : ∀ s ∈ ys, plainSeg s = true) : ∀ acc, ys.foldl cleanStep acc = acc ++ ys := by
  induction ys with
  | nil => intro acc; simp
  | cons y ys ih =>
    intro acc
    simp only [List.foldl_cons]
    rw [cleanStep_plain _ _ (h y (by simp))]
    rw [ih (fun s hs => h s (by simp [hs])) (acc ++ [y])]
    simp

theorem cleanAbs_idem (segs : List String) : cleanAbs (cleanAbs segs) = cleanAbs segs := by
  have := foldl_cleanStep_app (cleanAbs segs) (cleanAbs_all_plain segs) []
  simpa [cleanAbs] using this

theorem relEscapes_of_not_pref :
    ∀ (base target : List String), listIsPref base target = false →
      relEscapes base target = true := by
  intro base
  induction base with
  | nil => intro t h; simp [listIsPref] at h
  | cons a as ih =>
    intro t h
    cases t with
    | nil =>
      have h1 : goRel (a :: as) [] = ".." :: (List.replicate as.length ".." ++ []) := by
        simp [goRel, dropCommon, List.replicate_succ]
      unfold relEscapes
      rw [h1]
      show hasPrefixStr ".." ".." = true
      decide
    | cons b bs =>
      by_cases hab : a = b
      · subst hab
        have h' : listIsPref as bs = false := by simpa [listIsPref] using h
        have hrec := ih bs h'
        have hdc : dropCommon (a :: as) (a :: bs) = dropCommon as bs := by
          simp [dropCommon]
        simpa only [relEscapes, goRel, hdc] using hrec
      · have hdc : dropCommon (a :: as) (b :: bs) = (a :: as, b :: bs) := by
          simp [dropCommon, hab]
        have h1 : goRel (a :: as) (b :: bs) =
            ".." :: (List.replicate as.length ".." ++ (b :: bs)) := by
          simp [goRel, hdc, List.replicate_succ]
        unfold relEscapes
        rw [h1]
        show hasPrefixStr ".." ".." = true
        decide

theorem data_append (a b : String) : (a ++ b).data = a.data ++ b.data := rfl

theorem isPrefixB_extend (n : List Char) :
    ∀ (h t : List Char), isPrefixB n h = true → isPrefixB n (h ++ t) = true := by
  induction n with
  | nil => intro h t _; simp [isPrefixB]
  | cons a as ih =>
    intro h t hp
    cases h with
    | nil => simp [isPrefixB] at hp
    | cons b bs =>
      simp only [isPrefixB, Bool.and_eq_true] at hp ⊢
      exact ⟨hp.1, ih bs t hp.2⟩

theorem denied_msg_pre (e : String) :
    hasPrefixStr ("access denied: " ++ e) "access denied" = true := by
  unfold hasPrefixStr
  rw [data_append]
  exact isPrefixB_extend _ _ _ (by decide)

theorem validatePathInRoot_ok (fs : FS) (root : List String) (p : String) (v : List String)
    (h : validatePathInRoot fs root p = .ok v) : v = joinPath root p := by
  simp only [validatePathInRoot] at h
  rcases hr : resolveTarget fs (joinPath root p) with e | rp <;> rw [hr] at h
  · simp at h
  · rcases he : fs.eval root with rroot | _ | _ <;> rw [he] at h
    · by_cases hesc : relEscapes (cleanAbs rroot) (cleanAbs rp) = true
      · simp [hesc] at h
      · simp [hesc] at h
        exact h.symm
    · simp at h
    · simp at h

theorem validatePathInRoot_denies (fs : FS) (root : List String) (p : String)
    (q rroot : List String)
    (hq : resolveTarget fs (joinPath root p) = .ok q)
    (hroot : fs.eval root = .ok rroot)
    (hesc : relEscapes (cleanAbs rroot) (cleanAbs q) = true) :
    validatePathInRoot fs root p =
      .error ("path '" ++ p ++ "' is outside package root") := by
  simp [validatePathInRoot, hq, hroot, hesc]

theorem validatePathInRoot_passes (fs : FS) (root : List String) (p : String)
    (q rroot : List String)
    (hq : resolveTarget fs (joinPath root p) = .ok q)
    (hroot : fs.eval root = .ok rroot)
    (hesc : relEscapes (cleanAbs rroot) (cleanAbs q) = false) :
    validatePathInRoot fs root p = .ok (joinPath root p) := by
  simp [validatePathInRoot, hq, hroot, hesc]

theorem hasErrorIndicator_of_failed (content : String)
    (h : containsSub (toLowerS content) "i failed to" = true) :
    hasErrorIndicator content = true := by
  unfold hasErrorIndicator
  refine List.any_eq_true.mpr ⟨"I failed to", by simp [errorIndicators], ?_⟩
  have hlow : toLowerS "I failed to" = "i failed to" := by decide
  rw [hlow]
  exact h

theorem isTaskResultError_eq (reply : String) (conv : List ConversationEntry)
    (htrim : trimS reply ≠ "") (htok : isTokenLimitMessage reply = false)
    (hind : hasErrorIndicator reply = true) :
    isTaskResultError reply (some conv) = !(hasRecentSuccessfulTools conv) := by
  unfold isTaskResultError
  rw [if_neg htrim]
  simp only [htok, hind, Bool.false_eq_true, if_false, Bool.not_true, if_true]
  by_cases hr : hasRecentSuccessfulTools conv = true
  · simp [hr]
  · simp only [Bool.not_eq_true] at hr
    simp [hr]

theorem isTaskResultError_false_of_token (content : String)
    (conversation : Option (List ConversationEntry))
    (h : isTokenLimitMessage content = true) :
    isTaskResultError content conversation = false := by
  unfold isTaskResultError
  by_cases htrim : trimS content = ""
  · rw [if_pos htrim]
    cases conversation with
    | none => rfl
    | some conv => by_cases hr : hasRecentSuccessfulTools conv = true <;> simp [hr]
  · rw [if_neg htrim]
    simp [h]

theorem hasRecent_append_success (conv : List ConversationEntry) (e : ConversationEntry)
    (hty : e.type = "tool_result") (hsucc : isSuccessToolContent e.content = true) :
    hasRecentSuccessfulTools (conv ++ [e]) = true := by
  unfold hasRecentSuccessfulTools
  rw [List.reverse_append, List.reverse_singleton, List.singleton_append, List.take_succ_cons]
  unfold scanRecentTools
  simp [hty, hsucc]

theorem hasRecent_append_failure (conv : List ConversationEntry) (e : ConversationEntry)
    (hty : e.type = "tool_result") (hfailc : isFailureToolContent e.content = true)
    (hsucc : isSuccessToolContent e.content = false) :
    hasRecentSuccessfulTools (conv ++ [e]) = false := by
  unfold hasRecentSuccessfulTools
  rw [List.reverse_append, List.reverse_singleton, List.singleton_append, List.take_succ_cons]
  unfold scanRecentTools
  simp [hty, hsucc, hfailc]

/-! ## Claim theorems -/

/-- C5: a reply matching a token-limit phrase — in particular the exact
text "I reached the maximum response length" — is classified
`tokenLimitHit` and is never classified as an error: the token-limit
check in `isTaskResultError` and in the orchestration order takes
priority over error classification. -/
theorem c5_token_limit_priority :
    isTokenLimitMessage "I reached the maximum response length" = true ∧
    (∀ (content : String) (conversation : Option (List ConversationEntry))
        (conv : List ConversationEntry),
      isTokenLimitMessage content = true →
        isTaskResultError content conversation = false ∧
        classify content conv = .tokenLimitHit) := by
  refine ⟨by decide, ?_⟩
  intro content conversation conv h
  refine ⟨isTaskResultError_false_of_token content conversation h, ?_⟩
  simp [classify, h]

/-- Witness for C5 at the exact reply text of the claim. -/
theorem c5_witness :
    isTaskResultError "I reached the maximum response length" none = false ∧
    classify "I reached the maximum response length" [] = .tokenLimitHit :=
  c5_token_limit_priority.2 "I reached the maximum response length" none [] (by decide)

/-- C6: a reply containing "I failed to" is classified `success` when the
immediately preceding conversation entry is a tool result containing
"successfully wrote", and `errorLike` when the recent conversation holds
no such success tool result. -/
theorem c6_failed_to_override (reply : String) (conv : List ConversationEntry)
    (e : ConversationEntry)
    (hfail : containsSub (toLowerS reply) "i failed to" = true)
    (htok : isTokenLimitMessage reply = false)
    (htrim : trimS reply ≠ "") :
    (e.type = "tool_result" → containsSub (toLowerS e.content) "successfully wrote" = true →
      classify reply (conv ++ [e]) = .success) ∧
    (hasRecentSuccessfulTools conv = false → classify reply conv = .errorLike) := by
  have hind := hasErrorIndicator_of_failed reply hfail
  constructor
  · intro hty hsucc
    have hs : isSuccessToolContent e.content = true := by
      unfold isSuccessToolContent
      simp [hsucc]
    have hrec := hasRecent_append_success conv e hty hs
    have herr := isTaskResultError_eq reply (conv ++ [e]) htrim htok hind
    rw [hrec] at herr
    simp [classify, htok, herr]
  · intro hnone
    have herr := isTaskResultError_eq reply conv htrim htok hind
    rw [hnone] at herr
    simp [classify, htok, herr]

/-- Witness for C6: the same error-phrase reply flips between `success`
and `errorLike` depending on the preceding tool result. -/
theorem c6_witness :
    classify "I failed to create the file"
      ([⟨"model_text", "working"⟩] ++
        [⟨"tool_result", "Successfully wrote 120 bytes to _dev/build/docs/README.md"⟩]) =
      .success ∧
    classify "I failed to create the file" [⟨"model_text", "working"⟩] = .errorLike :=
  ⟨(c6_failed_to_override "I failed to create the file" [⟨"model_text", "working"⟩]
      ⟨"tool_result", "Successfully wrote 120 bytes to _dev/build/docs/README.md"⟩
      (by decide) (by decide) (by decide)).1 rfl (by decide),
   (c6_failed_to_override "I failed to create the file" [⟨"model_text", "working"⟩]
      ⟨"tool_result", "Successfully wrote 120 bytes to _dev/build/docs/README.md"⟩
      (by decide) (by decide) (by decide)).2 (by decide)⟩

/-- C10: the success-override scan inspects only the five most recent
conversation entries, scanning backward; an entry older than five from
the end never affects it; a newest failure tool result blocks any deeper
success; and, for an error-phrase reply, the override to non-error
happens exactly when the scan finds a recent success. -/
theorem c10_recent_tools_window :
    (∀ conv : List ConversationEntry,
      hasRecentSuccessfulTools conv =
        hasRecentSuccessfulTools ((conv.reverse.take 5).reverse)) ∧
    (∀ (e : ConversationEntry) (conv : List ConversationEntry), 5 ≤ conv.length →
      hasRecentSuccessfulTools (e :: conv) = hasRecentSuccessfulTools conv) ∧
    (∀ (e : ConversationEntry) (conv : List ConversationEntry),
      e.type = "tool_result" → isFailureToolContent e.content = true →
      isSuccessToolContent e.content = false →
      hasRecentSuccessfulTools (conv ++ [e]) = false) ∧
    (∀ (reply : String) (conv : List ConversationEntry),
      trimS reply ≠ "" → isTokenLimitMessage reply = false →
      hasErrorIndicator reply = true →
      (isTaskResultError reply (some conv) = false ↔
        hasRecentSuccessfulTools conv = true)) := by
  refine ⟨?_, ?_, ?_, ?_⟩
  · intro conv
    unfold hasRecentSuccessfulTools
    rw [List.reverse_reverse, List.take_take]
    norm_num
  · intro e conv hlen
    unfold hasRecentSuccessfulTools
    rw [List.reverse_cons, List.take_append_of_le_length (by simpa using hlen)]
  · intro e conv hty hfailc hsucc
    exact hasRecent_append_failure conv e hty hfailc hsucc
  · intro reply conv htrim htok hind
    rw [isTaskResultError_eq reply conv htrim htok hind]
    cases h : hasRecentSuccessfulTools conv <;> simp [h]

/-- Witness for C10: a success tool result pushed six entries deep no
longer overrides, while the same conversation without the padding does;
a fresh failure tool result forces the error classification. -/
theorem c10_witness :
    hasRecentSuccessfulTools
        (⟨"tool_result", "Successfully wrote 9 bytes to f"⟩ ::
          List.replicate 5 ⟨"model_text", "thinking"⟩) =
      hasRecentSuccessfulTools (List.replicate 5 ⟨"model_text", "thinking"⟩) ∧
    hasRecentSuccessfulTools
      ([⟨"tool_result", "Successfully wrote 9 bytes to f"⟩] ++
        [(⟨"tool_result", "failed: access denied"⟩ : ConversationEntry)]) = false ∧
    (isTaskResultError "I failed to finish" (some []) = false ↔
      hasRecentSuccessfulTools ([] : List ConversationEntry) = true) :=
  ⟨c10_recent_tools_window.2.1 ⟨"tool_result", "Successfully wrote 9 bytes to f"⟩
      (List.replicate 5 ⟨"model_text", "thinking"⟩) (by decide),
   c10_recent_tools_window.2.2.1 ⟨"tool_result", "failed: access denied"⟩
      [⟨"tool_result", "Successfully wrote 9 bytes to f"⟩] rfl (by decide) (by decide),
   c10_recent_tools_window.2.2.2 "I failed to finish" [] (by decide) (by decide) (by decide)⟩

/-- C3: backup/restore round-trip of the managed-document store — if no
document existed at backup time, a cancellation restore removes whatever
the task created; if it existed with content `C`, the restore brings back
exactly `C`. -/
theorem c3_backup_restore_roundtrip (s0 s1 : DocFS) (C : String) :
    (s0.present = false → s1.removeFails = false →
      (restoreOriginalReadme (backupOriginalReadme none s0) s1).present = false) ∧
    (s0.present = true → s0.readFails = false → s0.content = C → s1.writeFails = false →
      (restoreOriginalReadme (backupOriginalReadme none s0) s1).present = true ∧
      (restoreOriginalReadme (backupOriginalReadme none s0) s1).content = C) := by
  constructor
  · intro h0 h1
    simp [backupOriginalReadme, restoreOriginalReadme, h0, h1]
  · intro h0 hr hc h1
    simp [backupOriginalReadme, restoreOriginalReadme, h0, hr, h1, hc]

/-- Witness for C3: a created document disappears on restore; an
overwritten document recovers its original content. -/
theorem c3_witness :
    (restoreOriginalReadme
        (backupOriginalReadme none ⟨false, "", false, false, false⟩)
        ⟨true, "generated", false, false, false⟩).present = false ∧
    ((restoreOriginalReadme
        (backupOriginalReadme none ⟨true, "original C", false, false, false⟩)
        ⟨true, "generated", false, false, false⟩).present = true ∧
      (restoreOriginalReadme
        (backupOriginalReadme none ⟨true, "original C", false, false, false⟩)
        ⟨true, "generated", false, false, false⟩).content = "original C") :=
  ⟨(c3_backup_restore_roundtrip ⟨false, "", false, false, false⟩
      ⟨true, "generated", false, false, false⟩ "original C").1 rfl rfl,
   (c3_backup_restore_roundtrip ⟨true, "original C", false, false, false⟩
      ⟨true, "generated", false, false, false⟩ "original C").2 rfl rfl rfl rfl⟩

theorem runNonInteractiveRest_no_restore (env : NIEnv) (r : TaskResultM) :
    (runNonInteractiveRest env r).2 = false := by
  unfold runNonInteractiveRest
  split
  · rfl
  · split
    · rfl
    · split
      · rfl
      · split <;> rfl

theorem runNonInteractiveMode_no_restore (env : NIEnv) :
    (runNonInteractiveMode env).2 = false := by
  unfold runNonInteractiveMode
  split
  · rfl
  · split
    · split
      · rfl
      · split
        · rfl
        · split
          · rfl
          · exact runNonInteractiveRest_no_restore env _
    · exact runNonInteractiveRest_no_restore env _

/-- C4 counterexample: in unattended mode an error-like reply terminates
the task as failed (the error is surfaced to the caller), yet
`restoreOriginalReadme` is never invoked — the restore flag is `false`,
contradicting "the managed document is restored ... before the error is
surfaced". -/
theorem c4_counterexample :
    runNonInteractiveMode
        ⟨.ok ⟨"I failed to complete the task", []⟩, true, .ok ⟨"", []⟩, false, false,
          .ok ⟨"", []⟩, false⟩ =
      (.error ("LLM agent encountered an error: I failed to complete the task"), false) := by
  rfl

/-- C4 amended: unattended-mode failures (error-like reply or exhausted
attempts) never restore the backup; the restore-before-surfacing-the-error
behavior exists only in interactive mode, when the user chooses Exit
after an error-like reply. -/
theorem c4_restore_only_interactive :
    (∀ env : NIEnv, (runNonInteractiveMode env).2 = false) ∧
    (∀ (env : IEnv) (r : TaskResultM),
      env.execRes = .ok r →
      isTokenLimitMessage r.finalContent = false →
      isTaskResultError r.finalContent (some r.conversation) = true →
      env.errorChoice = "Exit" →
      runInteractiveStep env = (.exitErr "user chose to exit due to LLM error", true)) := by
  constructor
  · exact runNonInteractiveMode_no_restore
  · intro env r hex htok herr hch
    unfold runInteractiveStep
    rw [hex]
    simp [htok, herr, hch]

/-- Witness for C4: a concrete interactive error-exit iteration restores
the backup before surfacing the error. -/
theorem c4_witness :
    runInteractiveStep
        ⟨.ok ⟨"I failed to complete the task", []⟩, "Exit", false, "Cancel", ""⟩ =
      (.exitErr "user chose to exit due to LLM error", true) :=
  c4_restore_only_interactive.2
    ⟨.ok ⟨"I failed to complete the task", []⟩, "Exit", false, "Cancel", ""⟩
    ⟨"I failed to complete the task", []⟩ rfl (by decide) (by decide) rfl

theorem connectLoop_all_left (fs : List (Sum ToolSpec String))
    (h : ∀ f ∈ fs, f.isLeft = true) :
    connectLoop fs = .ok (fs.filterMap (fun f => f.getLeft?)) := by
  induction fs with
  | nil => rfl
  | cons f rest ih =>
    cases f with
    | inl t =>
      have ihr := ih (fun g hg => h g (List.mem_cons_of_mem _ hg))
      simp [connectLoop, ihr, List.filterMap_cons, Sum.getLeft?]
    | inr e =>
      have := h (.inr e) (List.mem_cons_self _ _)
      simp [Sum.isLeft] at this

theorem mcpToolsLoop_all_left (servers : List MCPServerEnv)
    (h : ∀ s ∈ servers, ∀ f ∈ s.feats, f.isLeft = true) :
    mcpToolsLoop servers = some (servers.map serverSpecTools) := by
  induction servers with
  | nil => rfl
  | cons s rest ih =>
    have hrest := ih (fun s' hs' => h s' (List.mem_cons_of_mem _ hs'))
    cases hu : s.hasUrl with
    | false => simp [mcpToolsLoop, hu, hrest, serverSpecTools]
    | true =>
      cases hc : s.connectOk with
      | false => simp [mcpToolsLoop, hu, mcpConnect, hc, hrest, serverSpecTools]
      | true =>
        cases ht : s.toolsCap with
        | false => simp [mcpToolsLoop, hu, mcpConnect, hc, ht, hrest, serverSpecTools]
        | true =>
          have hcl := connectLoop_all_left s.feats (h s (List.mem_cons_self _ _))
          simp [mcpToolsLoop, hu, mcpConnect, hc, ht, hcl, hrest, serverSpecTools]

/-- C9 counterexample: a provider whose tool enumeration yields an error
makes `Connect` call `log.Fatal`, killing the process (modeled `none`):
neither the second configured provider's tools nor the local tools are
available, so the failure is not contained to that provider. -/
theorem c9_counterexample :
    agentTools
        [⟨true, true, true, [.inr "tools iteration failed"]⟩,
         ⟨true, true, true, [.inl ⟨"search", "search the web"⟩]⟩]
        [⟨"read_file", "Read the contents of a file within the package."⟩] = none := by
  rfl

/-- C9 amended: failures of `client.Connect` for one provider are
isolated — `MCPTools` ignores the returned error, and the remaining
providers' tools together with the local tools are still aggregated —
but a failure while enumerating a connected provider's tools is fatal to
the whole process. -/
theorem c9_connect_failures_isolated (servers : List MCPServerEnv)
    (localTools : List ToolSpec)
    (hfeats : ∀ s ∈ servers, ∀ f ∈ s.feats, f.isLeft = true) :
    agentTools servers localTools =
      some ((servers.map serverSpecTools).flatten ++ localTools) := by
  unfold agentTools mcpTools
  rw [mcpToolsLoop_all_left servers hfeats]

/-- Witness for C9: a provider whose connection fails contributes no
tools, while the other provider's tools and the local tools survive. -/
theorem c9_witness :
    agentTools
        [⟨true, false, true, [.inl ⟨"search", "search the web"⟩]⟩,
         ⟨true, true, true, [.inl ⟨"lookup", "lookup docs"⟩]⟩]
        [⟨"read_file", "Read the contents of a file within the package."⟩] =
      some
        (([⟨true, false, true, [.inl ⟨"search", "search the web"⟩]⟩,
            (⟨true, true, true, [.inl ⟨"lookup", "lookup docs"⟩]⟩ : MCPServerEnv)].map
              serverSpecTools).flatten ++
          [⟨"read_file", "Read the contents of a file within the package."⟩]) :=
  c9_connect_failures_isolated _ _
    (by intro s hs; fin_cases hs <;> (intro f hf; fin_cases hf; rfl))

/-- C1 counterexample: the relative path "a/../b" contains a
parent-directory segment, yet the read_file tool does not deny it — the
join is cleaned lexically, stays inside the package root, and the file is
read. -/
theorem c1_counterexample :
    (splitPath "a/../b").contains ".." = true ∧
    readFileHandler
        ⟨fun pth => .ok pth,
         fun pth => if pth = ["r", "b"] then some "data" else none,
         fun _ => none, fun _ => false, fun _ => false⟩
        ["r"] "a/../b" = ⟨⟨some "data", none⟩, [], none⟩ := by
  constructor
  · decide
  · rfl

/-- C1 amended: a relative path whose resolution (symlinks resolved, or
the lexical clean for not-yet-existing targets) lands outside the
resolved package root is denied by read_file, list_directory and
write_file alike: each returns an access-denied tool error, produces no
content and performs no filesystem effect; a parent-directory segment
that stays inside the root is not denied. -/
theorem c1_sandbox_denies_escapes (fs : FS) (root : List String) (p content : String)
    (q rroot : List String)
    (hq : resolveTarget fs (joinPath root p) = .ok q)
    (hroot : fs.eval root = .ok rroot)
    (hesc : relEscapes (cleanAbs rroot) (cleanAbs q) = true) :
    ((readFileHandler fs root p).result.content = none ∧
      (∃ m, (readFileHandler fs root p).result.error = some m ∧
        hasPrefixStr m "access denied" = true) ∧
      (readFileHandler fs root p).effects = [] ∧
      (readFileHandler fs root p).goErr = none) ∧
    ((listDirectoryHandler fs root p).result.content = none ∧
      (∃ m, (listDirectoryHandler fs root p).result.error = some m ∧
        hasPrefixStr m "access denied" = true) ∧
      (listDirectoryHandler fs root p).effects = [] ∧
      (listDirectoryHandler fs root p).goErr = none) ∧
    ((writeFileHandler fs root p content).result.content = none ∧
      (∃ m, (writeFileHandler fs root p content).result.error = some m ∧
        hasPrefixStr m "access denied" = true) ∧
      (writeFileHandler fs root p content).effects = [] ∧
      (writeFileHandler fs root p content).goErr = none) := by
  have hval := validatePathInRoot_denies fs root p q rroot hq hroot hesc
  have hread : ∃ m, readFileHandler fs root p = ⟨⟨none, some m⟩, [], none⟩ ∧
      hasPrefixStr m "access denied" = true := by
    by_cases hd : (hasPrefixStr p "docs/" && !hasPrefixStr p "docs/knowledge_base/") = true
    · exact ⟨"access denied: cannot read generated documentation in docs/ (use _dev/build/docs/ instead)",
        by simp [readFileHandler, hd], by decide⟩
    · exact ⟨"access denied: " ++ ("path '" ++ p ++ "' is outside package root"),
        by simp [readFileHandler, hd, hval], denied_msg_pre _⟩
  have hlist : listDirectoryHandler fs root p =
      ⟨⟨none, some ("access denied: " ++ ("path '" ++ p ++ "' is outside package root"))⟩, [], none⟩ := by
    simp [listDirectoryHandler, hval]
  have hwrite : writeFileHandler fs root p content =
      ⟨⟨none, some ("access denied: " ++ ("path '" ++ p ++ "' is outside package root"))⟩, [], none⟩ := by
    simp [writeFileHandler, hval]
  obtain ⟨m1, he1, hp1⟩ := hread
  exact ⟨⟨by rw [he1], ⟨m1, by rw [he1], hp1⟩, by rw [he1], by rw [he1]⟩,
    ⟨by rw [hlist], ⟨_, by rw [hlist], denied_msg_pre _⟩, by rw [hlist], by rw [hlist]⟩,
    ⟨by rw [hwrite], ⟨_, by rw [hwrite], denied_msg_pre _⟩, by rw [hwrite], by rw [hwrite]⟩⟩

/-- Witness for C1: a path that is a symlink pointing outside the package
root is denied by all three tools. -/
theorem c1_witness :
    ((readFileHandler
        ⟨fun pth => if pth = ["r", "link"] then .ok ["etc", "passwd"] else .ok pth,
         fun _ => some "x", fun _ => none, fun _ => false, fun _ => false⟩
        ["r"] "link").result.content = none ∧
      (∃ m, (readFileHandler
        ⟨fun pth => if pth = ["r", "link"] then .ok ["etc", "passwd"] else .ok pth,
         fun _ => some "x", fun _ => none, fun _ => false, fun _ => false⟩
        ["r"] "link").result.error = some m ∧
        hasPrefixStr m "access denied" = true) ∧
      (readFileHandler
        ⟨fun pth => if pth = ["r", "link"] then .ok ["etc", "passwd"] else .ok pth,
         fun _ => some "x", fun _ => none, fun _ => false, fun _ => false⟩
        ["r"] "link").effects = [] ∧
      (readFileHandler
        ⟨fun pth => if pth = ["r", "link"] then .ok ["etc", "passwd"] else .ok pth,
         fun _ => some "x", fun _ => none, fun _ => false, fun _ => false⟩
        ["r"] "link").goErr = none) ∧
    ((listDirectoryHandler
        ⟨fun pth => if pth = ["r", "link"] then .ok ["etc", "passwd"] else .ok pth,
         fun _ => some "x", fun _ => none, fun _ => false, fun _ => false⟩
        ["r"] "link").result.content = none ∧
      (∃ m, (listDirectoryHandler
        ⟨fun pth => if pth = ["r", "link"] then .ok ["etc", "passwd"] else .ok pth,
         fun _ => some "x", fun _ => none, fun _ => false, fun _ => false⟩
        ["r"] "link").result.error = some m ∧
        hasPrefixStr m "access denied" = true) ∧
      (listDirectoryHandler
        ⟨fun pth => if pth = ["r", "link"] then .ok ["etc", "passwd"] else .ok pth,
         fun _ => some "x", fun _ => none, fun _ => false, fun _ => false⟩
        ["r"] "link").effects = [] ∧
      (listDirectoryHandler
        ⟨fun pth => if pth = ["r", "link"] then .ok ["etc", "passwd"] else .ok pth,
         fun _ => some "x", fun _ => none, fun _ => false, fun _ => false⟩
        ["r"] "link").goErr = none) ∧
    ((writeFileHandler
        ⟨fun pth => if pth = ["r", "link"] then .ok ["etc", "passwd"] else .ok pth,
         fun _ => some "x", fun _ => none, fun _ => false, fun _ => false⟩
        ["r"] "link" "c").result.content = none ∧
      (∃ m, (writeFileHandler
        ⟨fun pth => if pth = ["r", "link"] then .ok ["etc", "passwd"] else .ok pth,
         fun _ => some "x", fun _ => none, fun _ => false, fun _ => false⟩
        ["r"] "link" "c").result.error = some m ∧
        hasPrefixStr m "access denied" = true) ∧
      (writeFileHandler
        ⟨fun pth => if pth = ["r", "link"] then .ok ["etc", "passwd"] else .ok pth,
         fun _ => some "x", fun _ => none, fun _ => false, fun _ => false⟩
        ["r"] "link" "c").effects = [] ∧
      (writeFileHandler
        ⟨fun pth => if pth = ["r", "link"] then .ok ["etc", "passwd"] else .ok pth,
         fun _ => some "x", fun _ => none, fun _ => false, fun _ => false⟩
        ["r"] "link" "c").goErr = none) :=
  c1_sandbox_denies_escapes
    ⟨fun pth => if pth = ["r", "link"] then .ok ["etc", "passwd"] else .ok pth,
     fun _ => some "x", fun _ => none, fun _ => false, fun _ => false⟩
    ["r"] "link" "c" ["etc", "passwd"] ["r"] rfl rfl (by decide)

/-- C2: a write_file invocation whose (lexically resolved) target lies
outside the allowed-write subdirectory `_dev/build/docs` — whether inside
or outside the package root — yields an access-denied tool error string,
a nil Go error, and no filesystem effect. -/
theorem c2_write_outside_allowed_denied (fs : FS) (root : List String) (p c : String)
    (hallow : fs.eval (allowedDir root) = .ok (allowedDir root) ∨
      fs.eval (allowedDir root) = .noEnt)
    (hout : listIsPref (allowedDir root) (joinPath root p) = false) :
    ∃ m, writeFileHandler fs root p c =
      ⟨⟨none, some ("access denied: " ++ m)⟩, [], none⟩ := by
  unfold writeFileHandler
  cases hv : validatePathInRoot fs root p with
  | error e => exact ⟨e, rfl⟩
  | ok v =>
    have hveq := validatePathInRoot_ok fs root p v hv
    subst hveq
    have hesc := relEscapes_of_not_pref _ _ hout
    have h1 : cleanAbs (allowedDir root) = allowedDir root := by
      unfold allowedDir
      exact cleanAbs_idem _
    have h2 : cleanAbs (joinPath root p) = joinPath root p := by
      unfold joinPath
      exact cleanAbs_idem _
    refine ⟨"path '" ++ p ++ "' is outside allowed directory (_dev/build/docs/)", ?_⟩
    rcases hallow with hA | hA <;> simp [hv, hA, h1, h2, hesc]

/-- Witness for C2: writing to `manifest.yml` (inside the root, outside
`_dev/build/docs`) is denied and leaves the filesystem unchanged. -/
theorem c2_witness :
    ∃ m, writeFileHandler
        ⟨fun pth => .ok pth, fun _ => none, fun _ => none, fun _ => false, fun _ => false⟩
        ["r"] "manifest.yml" "data" =
      ⟨⟨none, some ("access denied: " ++ m)⟩, [], none⟩ :=
  c2_write_outside_allowed_denied
    ⟨fun pth => .ok pth, fun _ => none, fun _ => none, fun _ => false, fun _ => false⟩
    ["r"] "manifest.yml" "data" (Or.inl rfl) (by decide)

/-- C8 counterexample: the path "./docs/gen.md" resolves into the
generated-artifact subtree `docs/`, but the textual exclusion checks only
the literal prefix "docs/", so the read is served instead of denied. -/
theorem c8_counterexample :
    joinPath ["r"] "./docs/gen.md" = ["r", "docs", "gen.md"] ∧
    readFileHandler
        ⟨fun pth => .ok pth,
         fun pth => if pth = ["r", "docs", "gen.md"] then some "GENERATED" else none,
         fun _ => none, fun _ => false, fun _ => false⟩
        ["r"] "./docs/gen.md" = ⟨⟨some "GENERATED", none⟩, [], none⟩ := by
  constructor
  · decide
  · rfl

/-- C8 amended: a read_file path that literally begins with "docs/" and
not with "docs/knowledge_base/" is denied with the dedicated tool error;
a path under the whitelisted "docs/knowledge_base/" remains readable (the
exclusion is purely textual, so alternative spellings such as
"./docs/..." bypass it). -/
theorem c8_docs_read_exclusion (fs : FS) (root : List String) (p : String) :
    (hasPrefixStr p "docs/" = true → hasPrefixStr p "docs/knowledge_base/" = false →
      readFileHandler fs root p =
        ⟨⟨none, some "access denied: cannot read generated documentation in docs/ (use _dev/build/docs/ instead)"⟩,
          [], none⟩) ∧
    (∀ (content : String) (rroot : List String),
      hasPrefixStr p "docs/knowledge_base/" = true →
      resolveTarget fs (joinPath root p) = .ok (joinPath root p) →
      fs.eval root = .ok rroot →
      relEscapes (cleanAbs rroot) (cleanAbs (joinPath root p)) = false →
      fs.readF (joinPath root p) = some content →
      readFileHandler fs root p = ⟨⟨some content, none⟩, [], none⟩) := by
  constructor
  · intro h1 h2
    unfold readFileHandler
    simp [h1, h2]
  · intro content rroot hkb hq hroot hesc hread
    have hval := validatePathInRoot_passes fs root p _ rroot hq hroot hesc
    unfold readFileHandler
    simp [hkb, hval, hread]

/-- Witness for C8: a literal "docs/" path is denied while a
"docs/knowledge_base/" path is read. -/
theorem c8_witness :
    readFileHandler
        ⟨fun pth => .ok pth, fun _ => some "x", fun _ => none, fun _ => false, fun _ => false⟩
        ["r"] "docs/gen.md" =
      ⟨⟨none, some "access denied: cannot read generated documentation in docs/ (use _dev/build/docs/ instead)"⟩,
        [], none⟩ ∧
    readFileHandler
        ⟨fun pth => .ok pth,
         fun pth => if pth = ["r", "docs", "knowledge_base", "service_info.md"] then some "INFO" else none,
         fun _ => none, fun _ => false, fun _ => false⟩
        ["r"] "docs/knowledge_base/service_info.md" = ⟨⟨some "INFO", none⟩, [], none⟩ :=
  ⟨(c8_docs_read_exclusion
      ⟨fun pth => .ok pth, fun _ => some "x", fun _ => none, fun _ => false, fun _ => false⟩
      ["r"] "docs/gen.md").1 (by decide) (by decide),
   (c8_docs_read_exclusion
      ⟨fun pth => .ok pth,
       fun pth => if pth = ["r", "docs", "knowledge_base", "service_info.md"] then some "INFO" else none,
       fun _ => none, fun _ => false, fun _ => false⟩
      ["r"] "docs/knowledge_base/service_info.md").2 "INFO" ["r"]
      (by decide) rfl rfl (by decide) rfl⟩

theorem preservationWarning_inj {k k' : String}
    (h : preservationWarning k = preservationWarning k') : k = k' := by
  unfold preservationWarning at h
  have hd := congrArg String.data h
  rw [data_append, data_append, data_append, data_append] at hd
  have h1 := List.append_cancel_right hd
  have h2 := List.append_cancel_left h1
  cases k
  cases k'
  exact congrArg String.mk (by simpa using h2)

theorem warning_notin_of_key_notin (new key : String) :
    ∀ (rest : List (String × String)), key ∉ rest.map Prod.fst →
      preservationWarning key ∉ rest.filterMap
        (fun kv => if containsSub new kv.2 = true then none
          else some (preservationWarning kv.1)) := by
  intro rest h hmem
  obtain ⟨kv, hkvmem, hkv⟩ := List.mem_filterMap.mp hmem
  by_cases hc : containsSub new kv.2 = true
  · rw [if_pos hc] at hkv
    exact Option.noConfusion hkv
  · rw [if_neg hc] at hkv
    have heq : preservationWarning kv.1 = preservationWarning key := by simpa using hkv
    have hk : kv.1 = key := preservationWarning_inj heq
    exact h (hk ▸ List.mem_map.mpr ⟨kv, hkvmem, rfl⟩)

theorem warnings_count_of_mem (new key R : String) :
    ∀ (sections : List (String × String)),
      (key, R) ∈ sections →
      (sections.map Prod.fst).Nodup →
      ((containsSub new R = true →
        preservationWarning key ∉ sections.filterMap
          (fun kv => if containsSub new kv.2 = true then none
            else some (preservationWarning kv.1))) ∧
       (containsSub new R = false →
        (sections.filterMap
          (fun kv => if containsSub new kv.2 = true then none
            else some (preservationWarning kv.1))).count (preservationWarning key) = 1)) := by
  intro sections
  induction sections with
  | nil => intro h _; exact absurd h (List.not_mem_nil _)
  | cons kv rest ih =>
    obtain ⟨k, v⟩ := kv
    intro hmem hnd
    rw [List.map_cons, List.nodup_cons] at hnd
    obtain ⟨hknotin, hndrest⟩ := hnd
    rcases List.mem_cons.mp hmem with heq | hmemrest
    · injection heq with hk hv
      subst hk
      subst hv
      constructor
      · intro hct
        simp only [List.filterMap_cons, hct, if_true]
        exact warning_notin_of_key_notin new key rest hknotin
      · intro hcf
        simp only [List.filterMap_cons, hcf, Bool.false_eq_true, if_false]
        rw [List.count_cons_self]
        rw [List.count_eq_zero.mpr (warning_notin_of_key_notin new key rest hknotin)]
    · have hkeyin : key ∈ rest.map Prod.fst :=
        List.mem_map.mpr ⟨(key, R), hmemrest, rfl⟩
      have hkne : k ≠ key := fun hcontra => hknotin (hcontra ▸ hkeyin)
      have hihr := ih hmemrest hndrest
      by_cases hc : containsSub new v = true
      · constructor
        · intro hct
          simp only [List.filterMap_cons, hc, if_true]
          exact hihr.1 hct
        · intro hcf
          simp only [List.filterMap_cons, hc, if_true]
          exact hihr.2 hcf
      · have hwne : preservationWarning key ≠ preservationWarning k :=
          fun hcontra => hkne (preservationWarning_inj hcontra).symm
        constructor
        · intro hct
          simp only [List.filterMap_cons, hc, Bool.false_eq_true, if_false]
          intro hmem2
          rcases List.mem_cons.mp hmem2 with habs | htail
          · exact hwne habs
          · exact hihr.1 hct htail
        · intro hcf
          simp only [List.filterMap_cons, hc, Bool.false_eq_true, if_false]
          rw [List.count_cons_of_ne hwne]
          exact hihr.2 hcf

/-- C7: for a protected region with key `key` and exact text `R` extracted
from the original content (the extraction produces pairwise-distinct
keys), preservation validation emits no warning naming that key when the
new content contains `R` verbatim, and exactly one warning naming that
key when it does not. -/
theorem c7_preserved_region_warnings (orig new key R : String)
    (hmem : (key, R) ∈ extractPreservedSections orig)
    (hnodup : ((extractPreservedSections orig).map Prod.fst).Nodup) :
    (containsSub new R = true →
      preservationWarning key ∉ validatePreservedSections orig new) ∧
    (containsSub new R = false →
      (validatePreservedSections orig new).count (preservationWarning key) = 1) := by
  unfold validatePreservedSections
  exact warnings_count_of_mem new key R (extractPreservedSections orig) hmem hnodup

/-- Witness for C7: one `PRESERVE` region; keeping its text verbatim
produces no warning, dropping it produces exactly one warning naming
`PRESERVE-1`. -/
theorem c7_witness :
    (preservationWarning "PRESERVE-1" ∉
      validatePreservedSections
        "# T\n<!-- PRESERVE START -->keep me<!-- PRESERVE END -->\nrest"
        "x<!-- PRESERVE START -->keep me<!-- PRESERVE END -->y") ∧
    (validatePreservedSections
        "# T\n<!-- PRESERVE START -->keep me<!-- PRESERVE END -->\nrest"
        "unrelated").count (preservationWarning "PRESERVE-1") = 1 :=
  ⟨(c7_preserved_region_warnings
      "# T\n<!-- PRESERVE START -->keep me<!-- PRESERVE END -->\nrest"
      "x<!-- PRESERVE START -->keep me<!-- PRESERVE END -->y"
      "PRESERVE-1" "<!-- PRESERVE START -->keep me<!-- PRESERVE END -->"
      (by decide) (by decide)).1 (by decide),
   (c7_preserved_region_warnings
      "# T\n<!-- PRESERVE START -->keep me<!-- PRESERVE END -->\nrest"
      "unrelated"
      "PRESERVE-1" "<!-- PRESERVE START -->keep me<!-- PRESERVE END -->"
      (by decide) (by decide)).2 (by decide)⟩
